import Mathlib

/-!
Verification of the feature-encoding pipeline and training-loop skeleton of
`train.py` (hordelib kudos model training).

Python values that may appear in a request-record field are modelled by
`PyVal`; JSON/Python numbers are modelled by `ℚ` (floating-point rounding is
not modelled; none of the verified properties depend on it).  A field that may
be absent from its dictionary is an `Option`; fallible Python code (KeyError,
TypeError, ValueError from `list.index`, torch errors) is modelled by
`Except String`.
-/

/-- Value of a dynamically-typed payload field: Python `None`, a bool, a
number (modelled as `ℚ`), or a string. -/
inductive PyVal where
  | null : PyVal
  | bool (b : Bool) : PyVal
  | num (x : ℚ) : PyVal
  | str (s : String) : PyVal
deriving DecidableEq, Repr

/-- Python truthiness: `None` is falsy, `0` is falsy, the empty string is
falsy, everything else here is truthy. -/
def PyVal.truthy : PyVal → Bool
  | .null => false
  | .bool b => b
  | .num x => decide (x ≠ 0)
  | .str s => s ≠ ""

/-- Python `float(v)`: fails (TypeError) on `None`; casts a bool to 0/1;
keeps a number.  Numeric strings are not modelled as parseable (the training
records store genuine numbers in these fields), so a string fails. -/
def pyFloat : PyVal → Except String ℚ
  | .null => .error "TypeError: float() argument must not be None"
  | .bool b => .ok (if b then 1 else 0)
  | .num x => .ok x
  | .str _ => .error "ValueError: could not convert string to float"

/-- Banker's rounding (round half to even) of a rational to an integer,
the behaviour of Python's built-in `round`. -/
def roundHalfEven (x : ℚ) : ℤ :=
  let f := Int.floor x
  let r := x - f
  if r < 1 / 2 then f
  else if 1 / 2 < r then f + 1
  else if f % 2 = 0 then f else f + 1

/-- Python `round(x, 2)` on a rational. -/
def pythonRound2 (x : ℚ) : ℚ :=
  (roundHalfEven (100 * x) : ℚ) / 100

/-! ### Vocabularies (src/train.py lines 135-164)

`KNOWN_POST_PROCESSORS` is taken verbatim (it is not sorted by the source).
`KNOWN_SCHEDULERS` and `KNOWN_MODEL_BASELINES` are written directly in the
sorted order their `sort()` calls produce.  `KNOWN_SAMPLERS`,
`KNOWN_CONTROL_TYPES` and `KNOWN_SOURCE_PROCESSING` are built from
`HordeLib` constants whose source is not part of this repository snapshot,
so the encoder is parameterised over them (`HordeVocabs`). -/

def KNOWN_POST_PROCESSORS : List String :=
  ["RealESRGAN_x4plus", "RealESRGAN_x2plus", "RealESRGAN_x4plus_anime_6B",
   "NMKD_Siax", "4x_AnimeSharp", "strip_background", "GFPGAN", "CodeFormers"]

/-- Result of `sorted(["simple", "karras"])`. -/
def KNOWN_SCHEDULERS : List String := ["karras", "simple"]

/-- Result of sorting the five baseline names of src lines 157-164. -/
def KNOWN_MODEL_BASELINES : List String :=
  ["flux_1", "stable_cascade", "stable_diffusion_1", "stable_diffusion_2",
   "stable_diffusion_xl"]

/-- Modelled from the spec: the three closed vocabularies supplied by the
upstream `HordeLib` library (samplers, control types, source-processing
modes), which is not under src/.  The source appends `"None"` to the control
types and `"txt2img"` to the source-processing options before sorting
(src lines 150-156); theorems that need those members take them as
hypotheses. -/
structure HordeVocabs where
  samplers : List String
  control_types : List String
  source_processing : List String

/-! ### Request records

Only the fields the encoder reads are modelled.  `Option PyVal` distinguishes
an absent key (`none`) from a present value (including Python `None`,
i.e. `some PyVal.null`). -/

/-- The inner `payload` dictionary of a request record
(`payload["sdk_api_job_info"]["payload"]`). -/
structure InnerPayload where
  height : ℚ
  width : ℚ
  ddim_steps : ℚ
  cfg_scale : ℚ
  denoising_strength : Option PyVal
  clip_skip : Option PyVal
  control_strength : Option PyVal
  facefixer_strength : Option PyVal
  lora_count : Option PyVal
  ti_count : Option PyVal
  extra_source_images_count : Option PyVal
  extra_source_images_combined_size : Option PyVal
  source_image_size : Option PyVal
  source_mask_size : Option PyVal
  hires_fix : Option PyVal
  hires_fix_denoising_strength : Option PyVal
  image_is_control : Option PyVal
  return_control_map : Option PyVal
  transparent : Option PyVal
  source_image : Option PyVal
  source_mask : Option PyVal
  tiling : Option PyVal
  post_processing_order : Option PyVal
  scheduler : String
  sampler_name : String
  control_type : Option (Option String)
  post_processing : Option (Option (List String))

/-- The `sdk_api_job_info` object of a request record. -/
structure JobInfo where
  payload : InnerPayload
  model_baseline : String
  source_processing : Option String

/-- One top-level training record.  `time_to_generate` distinguishes an
absent key (`none`, a KeyError on access), a present null (`some none`) and a
numeric label (`some (some t)`). -/
structure TrainingRecord where
  sdk_api_job_info : JobInfo
  time_to_generate : Option (Option ℚ)

/-! ### The feature encoder (`KudosDataset`, src lines 257-361) -/

/-- Pattern `p.get(key, default) if p.get(key, default) is not None else
default` (src lines 291, 293, 294): absent or null gives the default; a
number is used as-is; a bool is later cast by `torch.tensor`; a string makes
`torch.tensor` raise. -/
def rawOrDefault (v : Option PyVal) (d : ℚ) : Except String ℚ :=
  match v with
  | none => .ok d
  | some .null => .ok d
  | some (.bool b) => .ok (if b then 1 else 0)
  | some (.num x) => .ok x
  | some (.str _) => .error "TypeError: invalid tensor element"

/-- Pattern `float(p.get(key, default))` (src lines 292, 295-300): absent
gives the default, a present value goes through Python `float`. -/
def floatOrDefault (v : Option PyVal) (d : ℚ) : Except String ℚ :=
  match v with
  | none => .ok d
  | some w => pyFloat w

/-- Pattern `1.0 if p.get(key, True) else 0.0` (src lines 301-308): the
truthiness of the stored value, with absence defaulting to `True`. -/
def flagValue (v : Option PyVal) : ℚ :=
  if (v.getD (PyVal.bool true)).truthy then 1 else 0

/-- Python `v == "facefixers_first"`: equality of a dynamic value with a
string literal is `False` for every non-string value. -/
def pyEqStr : PyVal → String → Bool
  | .str s, t => s == t
  | _, _ => false

/-- Pattern of src line 309: `1.0 if p.get("post_processing_order",
"facefixers_first") == "facefixers_first" else 0.0`. -/
def ppOrderValue (v : Option PyVal) : ℚ :=
  match v with
  | none => 1
  | some w => if pyEqStr w "facefixers_first" then 1 else 0

namespace KudosDataset

/-- The 23-entry numeric/boolean block appended to `data` by
`payload_to_tensor` (src lines 285-311), in source order. -/
def numericRow (p : InnerPayload) : Except String (List ℚ) := do
  let denoising ← rawOrDefault p.denoising_strength 1
  let clip ← floatOrDefault p.clip_skip 1
  let control ← rawOrDefault p.control_strength 1
  let facefixer ← rawOrDefault p.facefixer_strength 1
  let lora ← floatOrDefault p.lora_count 0
  let ti ← floatOrDefault p.ti_count 0
  let esiCount ← floatOrDefault p.extra_source_images_count 0
  let esiSize ← floatOrDefault p.extra_source_images_combined_size 0
  let sis ← floatOrDefault p.source_image_size 0
  let sms ← floatOrDefault p.source_mask_size 0
  return [p.height / 1024, p.width / 1024, p.ddim_steps / 100,
    p.cfg_scale / 30, denoising, clip, control, facefixer, lora, ti,
    esiCount, esiSize, sis, sms,
    flagValue p.hires_fix, flagValue p.hires_fix_denoising_strength,
    flagValue p.image_is_control, flagValue p.return_control_map,
    flagValue p.transparent, flagValue p.source_image,
    flagValue p.source_mask, flagValue p.tiling,
    ppOrderValue p.post_processing_order]

/-- One row of `one_hot_encode`: a zero row of the vocabulary's length with a
single 1 at `unique_strings.index(string)`; Python `list.index` raises
ValueError when the string is absent. -/
def oneHotRow (unique_strings : List String) (s : String) :
    Except String (List ℚ) :=
  match unique_strings.findIdx? (fun u => u == s) with
  | some i => .ok ((List.range unique_strings.length).map
      (fun j => if j = i then (1 : ℚ) else 0))
  | none => .error "ValueError: x not in list"

/-- `KudosDataset.one_hot_encode` (src lines 342-347): a zero matrix with one
1 per row at each string's index in the vocabulary. -/
def one_hot_encode (strings unique_strings : List String) :
    Except String (List (List ℚ)) :=
  strings.mapM (oneHotRow unique_strings)

/-- `KudosDataset.one_hot_encode_combined` (src lines 349-355): the one-hot
matrix summed over its rows (`torch.sum(one_hot, dim=0, keepdim=True)`), so
repeated strings accumulate. -/
def one_hot_encode_combined (strings unique_strings : List String) :
    Except String (List ℚ) := do
  let rows ← strings.mapM (oneHotRow unique_strings)
  return rows.foldl (fun acc row => List.zipWith (· + ·) acc row)
    (List.replicate unique_strings.length (0 : ℚ))

/-- `torch.cat(ms, dim=1)` for matrices that all have the same number of
rows (here always exactly one). -/
def catDim1 : List (List (List ℚ)) → List (List ℚ)
  | [] => []
  | [m] => m
  | m :: rest => List.zipWith (· ++ ·) m (catDim1 rest)

/-- `KudosDataset.payload_to_tensor` (src lines 274-340), parameterised over
the `HordeLib`-derived vocabularies.  Returns the 1×N feature matrix. -/
def payload_to_tensor (V : HordeVocabs) (record : TrainingRecord) :
    Except String (List (List ℚ)) := do
  let payload := record.sdk_api_job_info
  let p := payload.payload
  let dataRow ← numericRow p
  let data_model_baseline : List String :=
    [if payload.model_baseline ∈ KNOWN_MODEL_BASELINES then
       payload.model_baseline
     else "stable_diffusion_xl"]
  let data_schedulers : List String := [p.scheduler]
  let data_samplers : List String :=
    [if p.sampler_name ∈ V.samplers then p.sampler_name else "k_euler"]
  let data_control_types : List String :=
    [match p.control_type with
     | none => "None"
     | some none => "None"
     | some (some s) => s]
  let data_source_processing_types : List String :=
    [payload.source_processing.getD "txt2img"]
  let data_post_processors ← (match p.post_processing with
    | none => Except.ok ([] : List String)
    | some none =>
        Except.error "TypeError: NoneType object is not subscriptable"
    | some (some l) => Except.ok l)
  let dataFloats := [dataRow]
  let dataModelBaselines ← one_hot_encode data_model_baseline
    KNOWN_MODEL_BASELINES
  let dataSamplers ← one_hot_encode data_samplers V.samplers
  let dataSchedulers ← one_hot_encode data_schedulers KNOWN_SCHEDULERS
  let dataControlTypes ← one_hot_encode data_control_types V.control_types
  let dataSourceProcessingTypes ← one_hot_encode
    data_source_processing_types V.source_processing
  let dataPostProcessors ← one_hot_encode_combined data_post_processors
    KNOWN_POST_PROCESSORS
  return catDim1 [dataFloats, dataModelBaselines, dataSamplers,
    dataSchedulers, dataControlTypes, dataSourceProcessingTypes,
    [dataPostProcessors]]

end KudosDataset

/-- The in-memory dataset built by `KudosDataset.__init__`. -/
structure KudosDatasetState where
  data : List (List ℚ)
  labels : List ℚ
deriving Repr, DecidableEq

namespace KudosDataset

/-- The record loop of `KudosDataset.__init__` (src lines 265-269): a record
whose `time_to_generate` key is missing raises KeyError; a record whose value
is null is skipped (`continue`); otherwise the encoded row and label are
appended. -/
def initAux (V : HordeVocabs) :
    List TrainingRecord → Except String (List (List ℚ) × List ℚ)
  | [] => .ok ([], [])
  | record :: rest =>
    match record.time_to_generate with
    | none => .error "KeyError: time_to_generate"
    | some none => initAux V rest
    | some (some t) => do
      let m ← payload_to_tensor V record
      let row ← (match m with
        | r :: _ => Except.ok r
        | [] => Except.error "IndexError: index 0 is out of bounds")
      let (ds, ls) ← initAux V rest
      return (row :: ds, t :: ls)

/-- `KudosDataset.__init__` (src lines 258-272): load every record, then
`torch.stack(self.data)`, which raises when no record was stored. -/
def init (V : HordeVocabs) (payload_list : List TrainingRecord) :
    Except String KudosDatasetState := do
  let (data, labels) ← initAux V payload_list
  if data.isEmpty then
    Except.error "RuntimeError: stack expects a non-empty TensorList"
  else
    Except.ok ⟨data, labels⟩

end KudosDataset

/-- `payload_to_time` (src lines 208-212): encode, squeeze the 1×N matrix to
a vector, apply the model (abstracted as a function from feature vectors to
the scalar the network outputs), and round to two decimal places.  No
clamping is applied to the output. -/
def payload_to_time (V : HordeVocabs) (model : List ℚ → ℚ)
    (payload : TrainingRecord) : Except String ℚ := do
  let m ← KudosDataset.payload_to_tensor V payload
  let inputs := m.flatten
  return pythonRound2 (model inputs)

/-! ### Architecture builder (`create_sequential_model`, src lines 364-380) -/

/-- One torch layer of the sequential model.  `nn.Linear(a, b)` is
constructed with its default `bias=True`; the source never passes
`bias=False`. -/
inductive Layer where
  | linear (in_features out_features : Nat) (bias : Bool) : Layer
  | relu : Layer
  | dropout (p : ℚ) : Layer
deriving DecidableEq, Repr

/-- Body of one iteration of the layer loop (src lines 370-377), reading the
padded size list `ls` at absolute position `i`.  `dropoutFor i` stands for
the trial-sampled value of `suggest_float("dropout_l" + str(i), ...)`. -/
def layerPiece (dropoutFor : Nat → ℚ) (ls : List Nat) (i : Nat) :
    List Layer :=
  [Layer.linear (ls.getD i 0) (ls.getD (i + 1) 0) true] ++
  (if i < ls.length - 2 then
    [Layer.relu] ++ (if 0 < i then [Layer.dropout (dropoutFor i)] else [])
  else [])

/-- `create_sequential_model` (src lines 364-380): pad the hidden widths with
the input and output sizes, then emit one linear layer per consecutive pair,
a ReLU after every layer except the last, and a dropout layer after hidden
layers beyond the first. -/
def create_sequential_model (dropoutFor : Nat → ℚ) (layer_sizes : List Nat)
    (input_size : Nat) (output_size : Nat) : List Layer :=
  let ls := input_size :: (layer_sizes ++ [output_size])
  ((List.range (ls.length - 1)).map (layerPiece dropoutFor ls)).flatten

/-- Layer layout stated independently of the loop, for comparison with
`create_sequential_model`: walking the width list with the absolute index of
the layer being emitted.  An empty hidden list yields a single default-bias
linear layer; every hidden layer gets a ReLU; hidden layers beyond the first
also get a dropout layer; the final linear layer (default bias) gets no
activation. -/
def seqSpec (dropoutFor : Nat → ℚ) : Nat → Nat → List Nat → Nat → List Layer
  | _, prev, [], out => [Layer.linear prev out true]
  | i, prev, h :: rest, out =>
    [Layer.linear prev h true, Layer.relu] ++
    (if 0 < i then [Layer.dropout (dropoutFor i)] else []) ++
    seqSpec dropoutFor (i + 1) h rest out

/-! ### Search objective skeleton (`objective`, src lines 383-466)

The torch training step and the per-batch validation losses are abstracted:
`trainEpoch` is the training pass over the shuffled training loader (one
epoch, mutating the model/optimizer state), and `valBatchLosses s` is the
list of MSE losses of the current model state over the validation loader's
batches.  The epoch loop itself (src lines 433-459) is translated directly:
each epoch overwrites `total_loss` with that epoch's accumulated validation
loss divided by the number of validation batches and rounded to two decimal
places. -/

/-- The value stored into `total_loss` at the end of one epoch
(src lines 448-459). -/
def epochValidationScore {σ : Type} (valBatchLosses : σ → List ℚ) (s : σ) :
    ℚ :=
  pythonRound2
    (((valBatchLosses s).foldl (· + ·) 0) / ((valBatchLosses s).length : ℚ))

/-- The epoch loop of `objective` (src lines 433-459) and its returned value
(src line 466): `total_loss` starts as `None` and is overwritten every
epoch; the pair also carries the final model state. -/
def objectiveLoop {σ : Type} (trainEpoch : σ → σ)
    (valBatchLosses : σ → List ℚ) (num_epochs : Nat) (s0 : σ) :
    Option ℚ × σ :=
  (List.range num_epochs).foldl
    (fun acc _ =>
      let s1 := trainEpoch acc.2
      (some (epochValidationScore valBatchLosses s1), s1))
    (none, s0)

/-- `PAYLOAD_EXAMPLE` (src lines 82-130), restricted to the fields the
encoder reads.  Keys such as `extra_source_images_count` live on the job-info
level of the example, not inside `payload`, and the encoder reads them from
`payload`, so they are absent here. -/
def PAYLOAD_EXAMPLE : TrainingRecord where
  sdk_api_job_info :=
    { payload :=
        { height := 1024
          width := 768
          ddim_steps := 40
          cfg_scale := 24
          denoising_strength := some PyVal.null
          clip_skip := some (PyVal.num 1)
          control_strength := none
          facefixer_strength := some PyVal.null
          lora_count := some (PyVal.num 0)
          ti_count := some (PyVal.num 0)
          extra_source_images_count := none
          extra_source_images_combined_size := none
          source_image_size := none
          source_mask_size := none
          hires_fix := some (PyVal.bool false)
          hires_fix_denoising_strength := some PyVal.null
          image_is_control := some (PyVal.bool false)
          return_control_map := some (PyVal.bool false)
          transparent := some (PyVal.bool false)
          source_image := none
          source_mask := none
          tiling := some (PyVal.bool false)
          post_processing_order := some (PyVal.str "facefixers_first")
          scheduler := "karras"
          sampler_name := "k_euler"
          control_type := some none
          post_processing := some (some []) }
      model_baseline := "stable_diffusion_1"
      source_processing := some "img2img" }
  time_to_generate := some (some (4.450331687927246 : ℚ))

/-- `input_size = len(KudosDataset.payload_to_tensor(PAYLOAD_EXAMPLE)[0])`
(src line 388). -/
def objective_input_size (V : HordeVocabs) : Except String Nat := do
  let m ← KudosDataset.payload_to_tensor V PAYLOAD_EXAMPLE
  match m with
  | row :: _ => return row.length
  | [] => Except.error "IndexError: index 0 is out of bounds"

/-! ### Well-formed records

`wfRecord` collects the conditions under which every fallible step of
`payload_to_tensor` succeeds: optional numeric fields are not strings (and
the `float()`-converted ones are not null either), the scheduler and every
listed post-processor are in their vocabularies, the fallback sampler
`"k_euler"` and the substitute control type `"None"` are in the
`HordeLib`-derived vocabularies, a present control-type string is in its
vocabulary, the (defaulted) source-processing value is in its vocabulary,
and `post_processing` is not null. -/

/-- A value acceptable to `rawOrDefault` (src lines 291, 293, 294). -/
def rawOk : Option PyVal → Bool
  | some (.str _) => false
  | _ => true

/-- A value acceptable to `floatOrDefault` (src lines 292, 295-300). -/
def floatOk : Option PyVal → Bool
  | some PyVal.null => false
  | some (.str _) => false
  | _ => true

/-- A present control-type string must be in its vocabulary (absent or null
control types are replaced by `"None"` before lookup). -/
def controlTypeOk (V : HordeVocabs) : Option (Option String) → Bool
  | some (some s) => decide (s ∈ V.control_types)
  | _ => true

/-- `post_processing` must not be null and every listed post-processor must
be in the vocabulary. -/
def postProcessingOk : Option (Option (List String)) → Bool
  | some none => false
  | some (some l) => l.all (fun s => decide (s ∈ KNOWN_POST_PROCESSORS))
  | none => true

/-- Sufficient (decidable) conditions for `payload_to_tensor` to succeed. -/
def wfRecord (V : HordeVocabs) (r : TrainingRecord) : Prop :=
  rawOk r.sdk_api_job_info.payload.denoising_strength = true ∧
  rawOk r.sdk_api_job_info.payload.control_strength = true ∧
  rawOk r.sdk_api_job_info.payload.facefixer_strength = true ∧
  floatOk r.sdk_api_job_info.payload.clip_skip = true ∧
  floatOk r.sdk_api_job_info.payload.lora_count = true ∧
  floatOk r.sdk_api_job_info.payload.ti_count = true ∧
  floatOk r.sdk_api_job_info.payload.extra_source_images_count = true ∧
  floatOk r.sdk_api_job_info.payload.extra_source_images_combined_size
    = true ∧
  floatOk r.sdk_api_job_info.payload.source_image_size = true ∧
  floatOk r.sdk_api_job_info.payload.source_mask_size = true ∧
  r.sdk_api_job_info.payload.scheduler ∈ KNOWN_SCHEDULERS ∧
  "k_euler" ∈ V.samplers ∧
  "None" ∈ V.control_types ∧
  controlTypeOk V r.sdk_api_job_info.payload.control_type = true ∧
  r.sdk_api_job_info.source_processing.getD "txt2img"
    ∈ V.source_processing ∧
  postProcessingOk r.sdk_api_job_info.payload.post_processing = true

instance (V : HordeVocabs) (r : TrainingRecord) :
    Decidable (wfRecord V r) := by
  unfold wfRecord
  infer_instance

/-- A small concrete instantiation of the `HordeLib`-derived vocabularies,
used by the concrete witnesses and counterexamples below. -/
def exampleVocabs : HordeVocabs where
  samplers := ["k_euler"]
  control_types := ["None"]
  source_processing := ["img2img", "txt2img"]

/-- A record with every optional field absent (only the keys
`payload_to_tensor` reads unconditionally are present). -/
def minimalRecord : TrainingRecord where
  sdk_api_job_info :=
    { payload :=
        { height := 512
          width := 512
          ddim_steps := 30
          cfg_scale := 7
          denoising_strength := none
          clip_skip := none
          control_strength := none
          facefixer_strength := none
          lora_count := none
          ti_count := none
          extra_source_images_count := none
          extra_source_images_combined_size := none
          source_image_size := none
          source_mask_size := none
          hires_fix := none
          hires_fix_denoising_strength := none
          image_is_control := none
          return_control_map := none
          transparent := none
          source_image := none
          source_mask := none
          tiling := none
          post_processing_order := none
          scheduler := "karras"
          sampler_name := "k_euler"
          control_type := none
          post_processing := none }
      model_baseline := "stable_diffusion_1"
      source_processing := none }
  time_to_generate := some (some 3)

/-! ### Helper lemmas -/

instance exceptDecEq {e a : Type} [DecidableEq e] [DecidableEq a] :
    DecidableEq (Except e a) := fun x y =>
  match x, y with
  | .error u, .error v =>
    if h : u = v then isTrue (by rw [h]) else isFalse (by simp [h])
  | .ok u, .ok v =>
    if h : u = v then isTrue (by rw [h]) else isFalse (by simp [h])
  | .error _, .ok _ => isFalse (by simp)
  | .ok _, .error _ => isFalse (by simp)

theorem exceptBind_ok {α β : Type} (x : Except String α)
    (f : α → Except String β) (b : β) :
    (x >>= f) = Except.ok b ↔ ∃ a, x = Except.ok a ∧ f a = Except.ok b := by
  cases x <;> simp [Bind.bind, Except.bind]

theorem rawOrDefault_ok (v : Option PyVal) (d : ℚ) (h : rawOk v = true) :
    ∃ q, rawOrDefault v d = Except.ok q := by
  cases v with
  | none => exact ⟨d, rfl⟩
  | some w => cases w <;> simp_all [rawOk, rawOrDefault]

theorem floatOrDefault_ok (v : Option PyVal) (d : ℚ) (h : floatOk v = true) :
    ∃ q, floatOrDefault v d = Except.ok q := by
  cases v with
  | none => exact ⟨d, rfl⟩
  | some w => cases w <;> simp_all [floatOk, floatOrDefault, pyFloat]

theorem findIdx?_some_of_mem {s : String} {l : List String} (h : s ∈ l) :
    ∃ i, l.findIdx? (fun u => u == s) = some i := by
  have hs : (l.findIdx? (fun u => u == s)).isSome := by
    rw [List.findIdx?_isSome]
    exact List.any_eq_true.mpr ⟨s, h, by simp⟩
  exact Option.isSome_iff_exists.mp hs

theorem oneHotRow_ok_of_mem {s : String} {l : List String} (h : s ∈ l) :
    ∃ row, KudosDataset.oneHotRow l s = Except.ok row := by
  obtain ⟨i, hi⟩ := findIdx?_some_of_mem h
  refine ⟨(List.range l.length).map (fun j => if j = i then (1 : ℚ) else 0), ?_⟩
  unfold KudosDataset.oneHotRow
  rw [hi]

theorem oneHotRow_ok_length {l : List String} {s : String} {row : List ℚ}
    (h : KudosDataset.oneHotRow l s = Except.ok row) :
    row.length = l.length := by
  unfold KudosDataset.oneHotRow at h
  cases hfi : l.findIdx? (fun u => u == s) with
  | none => rw [hfi] at h; cases h
  | some i =>
    rw [hfi] at h
    cases h
    simp

theorem one_hot_encode_singleton_inv {s : String} {vocab : List String}
    {m : List (List ℚ)}
    (h : KudosDataset.one_hot_encode [s] vocab = Except.ok m) :
    ∃ row, m = [row] ∧ KudosDataset.oneHotRow vocab s = Except.ok row := by
  unfold KudosDataset.one_hot_encode at h
  cases hr : KudosDataset.oneHotRow vocab s with
  | error e =>
    rw [List.mapM_cons, List.mapM_nil] at h
    rw [hr] at h
    cases h
  | ok row =>
    rw [List.mapM_cons, List.mapM_nil] at h
    rw [hr] at h
    refine ⟨row, ?_, rfl⟩
    simpa [pure, Except.pure, Bind.bind, Except.bind] using h.symm

theorem one_hot_encode_singleton_of_ok {s : String} {vocab : List String}
    {row : List ℚ} (h : KudosDataset.oneHotRow vocab s = Except.ok row) :
    KudosDataset.one_hot_encode [s] vocab = Except.ok [row] := by
  unfold KudosDataset.one_hot_encode
  rw [List.mapM_cons, List.mapM_nil, h]
  rfl

theorem mapM_oneHotRow_ok_of_mem {vocab : List String} :
    ∀ {strings : List String}, (∀ s ∈ strings, s ∈ vocab) →
    ∃ rows, strings.mapM (KudosDataset.oneHotRow vocab) = Except.ok rows ∧
      ∀ r ∈ rows, r.length = vocab.length := by
  intro strings
  induction strings with
  | nil => exact fun _ => ⟨[], rfl, by simp⟩
  | cons a l ih =>
    intro h
    obtain ⟨row, hrow⟩ := oneHotRow_ok_of_mem (h a (by simp))
    obtain ⟨rows, hrows, hlen⟩ := ih (fun s hs => h s (by simp [hs]))
    refine ⟨row :: rows, ?_, ?_⟩
    · rw [List.mapM_cons, hrow, hrows]
      rfl
    · intro r hr
      rcases List.mem_cons.mp hr with h1 | h1
      · subst h1; exact oneHotRow_ok_length hrow
      · exact hlen r h1

theorem mapM_oneHotRow_lengths {vocab : List String} :
    ∀ {strings : List String} {rows : List (List ℚ)},
    strings.mapM (KudosDataset.oneHotRow vocab) = Except.ok rows →
    ∀ r ∈ rows, r.length = vocab.length := by
  intro strings
  induction strings with
  | nil =>
    intro rows h
    simp only [List.mapM_nil, pure, Except.pure] at h
    cases h
    simp
  | cons a l ih =>
    intro rows h
    rw [List.mapM_cons] at h
    rw [exceptBind_ok] at h
    obtain ⟨row, hrow, h⟩ := h
    rw [exceptBind_ok] at h
    obtain ⟨rest, hrest, h⟩ := h
    simp only [pure, Except.pure, Except.ok.injEq] at h
    subst h
    intro r hr
    rcases List.mem_cons.mp hr with h1 | h1
    · subst h1; exact oneHotRow_ok_length hrow
    · exact ih hrest r h1

theorem foldl_zipWith_add_length :
    ∀ (rows : List (List ℚ)) (acc : List ℚ),
    (∀ r ∈ rows, r.length = acc.length) →
    (rows.foldl (fun acc row => List.zipWith (· + ·) acc row) acc).length =
      acc.length := by
  intro rows
  induction rows with
  | nil => intro acc _; rfl
  | cons a l ih =>
    intro acc h
    have ha : a.length = acc.length := h a (by simp)
    have hz : (List.zipWith (· + ·) acc a).length = acc.length := by
      simp [List.length_zipWith, ha]
    rw [List.foldl_cons]
    rw [ih (List.zipWith (· + ·) acc a)
      (fun r hr => by rw [hz]; exact h r (by simp [hr]))]
    exact hz

theorem one_hot_encode_combined_ok_length {strings vocab : List String}
    {row : List ℚ}
    (h : KudosDataset.one_hot_encode_combined strings vocab = Except.ok row) :
    row.length = vocab.length := by
  unfold KudosDataset.one_hot_encode_combined at h
  rw [exceptBind_ok] at h
  obtain ⟨rows, hrows, h⟩ := h
  simp only [pure, Except.pure, Except.ok.injEq] at h
  subst h
  rw [foldl_zipWith_add_length rows _
    (fun r hr => by
      rw [List.length_replicate]
      exact mapM_oneHotRow_lengths hrows r hr)]
  exact List.length_replicate _ _

theorem one_hot_encode_combined_ok_of_mem {strings vocab : List String}
    (h : ∀ s ∈ strings, s ∈ vocab) :
    ∃ row,
      KudosDataset.one_hot_encode_combined strings vocab = Except.ok row ∧
      row.length = vocab.length := by
  obtain ⟨rows, hrows, hlen⟩ := mapM_oneHotRow_ok_of_mem h
  refine ⟨rows.foldl (fun acc row => List.zipWith (· + ·) acc row)
    (List.replicate vocab.length (0 : ℚ)), ?_, ?_⟩
  · unfold KudosDataset.one_hot_encode_combined
    rw [hrows]
    rfl
  · rw [foldl_zipWith_add_length rows _
      (fun r hr => by rw [List.length_replicate]; exact hlen r hr)]
    exact List.length_replicate _ _

theorem numericRow_ok_inv {p : InnerPayload} {row : List ℚ}
    (h : KudosDataset.numericRow p = Except.ok row) :
    ∃ v1 v2 v3 v4 v5 v6 v7 v8 v9 v10,
      row = [p.height / 1024, p.width / 1024, p.ddim_steps / 100,
        p.cfg_scale / 30, v1, v2, v3, v4, v5, v6, v7, v8, v9, v10,
        flagValue p.hires_fix, flagValue p.hires_fix_denoising_strength,
        flagValue p.image_is_control, flagValue p.return_control_map,
        flagValue p.transparent, flagValue p.source_image,
        flagValue p.source_mask, flagValue p.tiling,
        ppOrderValue p.post_processing_order] := by
  unfold KudosDataset.numericRow at h
  rw [exceptBind_ok] at h
  obtain ⟨v1, _, h⟩ := h
  rw [exceptBind_ok] at h
  obtain ⟨v2, _, h⟩ := h
  rw [exceptBind_ok] at h
  obtain ⟨v3, _, h⟩ := h
  rw [exceptBind_ok] at h
  obtain ⟨v4, _, h⟩ := h
  rw [exceptBind_ok] at h
  obtain ⟨v5, _, h⟩ := h
  rw [exceptBind_ok] at h
  obtain ⟨v6, _, h⟩ := h
  rw [exceptBind_ok] at h
  obtain ⟨v7, _, h⟩ := h
  rw [exceptBind_ok] at h
  obtain ⟨v8, _, h⟩ := h
  rw [exceptBind_ok] at h
  obtain ⟨v9, _, h⟩ := h
  rw [exceptBind_ok] at h
  obtain ⟨v10, _, h⟩ := h
  simp only [pure, Except.pure, Except.ok.injEq] at h
  exact ⟨v1, v2, v3, v4, v5, v6, v7, v8, v9, v10, h.symm⟩

theorem numericRow_ok_of_wf {p : InnerPayload}
    (h1 : rawOk p.denoising_strength = true)
    (h2 : floatOk p.clip_skip = true)
    (h3 : rawOk p.control_strength = true)
    (h4 : rawOk p.facefixer_strength = true)
    (h5 : floatOk p.lora_count = true)
    (h6 : floatOk p.ti_count = true)
    (h7 : floatOk p.extra_source_images_count = true)
    (h8 : floatOk p.extra_source_images_combined_size = true)
    (h9 : floatOk p.source_image_size = true)
    (h10 : floatOk p.source_mask_size = true) :
    ∃ row, KudosDataset.numericRow p = Except.ok row := by
  obtain ⟨q1, e1⟩ := rawOrDefault_ok p.denoising_strength 1 h1
  obtain ⟨q2, e2⟩ := floatOrDefault_ok p.clip_skip 1 h2
  obtain ⟨q3, e3⟩ := rawOrDefault_ok p.control_strength 1 h3
  obtain ⟨q4, e4⟩ := rawOrDefault_ok p.facefixer_strength 1 h4
  obtain ⟨q5, e5⟩ := floatOrDefault_ok p.lora_count 0 h5
  obtain ⟨q6, e6⟩ := floatOrDefault_ok p.ti_count 0 h6
  obtain ⟨q7, e7⟩ := floatOrDefault_ok p.extra_source_images_count 0 h7
  obtain ⟨q8, e8⟩ :=
    floatOrDefault_ok p.extra_source_images_combined_size 0 h8
  obtain ⟨q9, e9⟩ := floatOrDefault_ok p.source_image_size 0 h9
  obtain ⟨q10, e10⟩ := floatOrDefault_ok p.source_mask_size 0 h10
  refine ⟨[p.height / 1024, p.width / 1024, p.ddim_steps / 100,
    p.cfg_scale / 30, q1, q2, q3, q4, q5, q6, q7, q8, q9, q10,
    flagValue p.hires_fix, flagValue p.hires_fix_denoising_strength,
    flagValue p.image_is_control, flagValue p.return_control_map,
    flagValue p.transparent, flagValue p.source_image,
    flagValue p.source_mask, flagValue p.tiling,
    ppOrderValue p.post_processing_order], ?_⟩
  unfold KudosDataset.numericRow
  rw [e1, e2, e3, e4, e5, e6, e7, e8, e9, e10]
  rfl

theorem ok_bind {α β : Type} (a : α) (f : α → Except String β) :
    (Except.ok a >>= f) = f a := rfl

/-- Inversion of a successful run of `payload_to_tensor`: the result is a
single row, namely the numeric block followed by the six categorical
blocks in source order. -/
theorem payload_to_tensor_ok_inv {V : HordeVocabs} {r : TrainingRecord}
    {m : List (List ℚ)}
    (h : KudosDataset.payload_to_tensor V r = Except.ok m) :
    ∃ nrow brow srow schrow ctrow sprow pprow,
      KudosDataset.numericRow r.sdk_api_job_info.payload = Except.ok nrow ∧
      KudosDataset.oneHotRow KNOWN_MODEL_BASELINES
        (if r.sdk_api_job_info.model_baseline ∈ KNOWN_MODEL_BASELINES then
          r.sdk_api_job_info.model_baseline
        else "stable_diffusion_xl") = Except.ok brow ∧
      KudosDataset.oneHotRow V.samplers
        (if r.sdk_api_job_info.payload.sampler_name ∈ V.samplers then
          r.sdk_api_job_info.payload.sampler_name
        else "k_euler") = Except.ok srow ∧
      KudosDataset.oneHotRow KNOWN_SCHEDULERS
        r.sdk_api_job_info.payload.scheduler = Except.ok schrow ∧
      KudosDataset.oneHotRow V.control_types
        (match r.sdk_api_job_info.payload.control_type with
         | none => "None"
         | some none => "None"
         | some (some s) => s) = Except.ok ctrow ∧
      KudosDataset.oneHotRow V.source_processing
        (r.sdk_api_job_info.source_processing.getD "txt2img")
        = Except.ok sprow ∧
      pprow.length = KNOWN_POST_PROCESSORS.length ∧
      m = [nrow ++ brow ++ srow ++ schrow ++ ctrow ++ sprow ++ pprow] := by
  simp only [KudosDataset.payload_to_tensor, exceptBind_ok, pure,
    Except.pure, Except.ok.injEq] at h
  obtain ⟨nrow, hn, pl, hpl, mb, hmb, ms, hms, msch, hsch, mct, hct,
    msp, hsp, pprow, hppr, hm⟩ := h
  obtain ⟨brow, rfl, hb⟩ := one_hot_encode_singleton_inv hmb
  obtain ⟨srow, rfl, hs⟩ := one_hot_encode_singleton_inv hms
  obtain ⟨schrow, rfl, hsch2⟩ := one_hot_encode_singleton_inv hsch
  obtain ⟨ctrow, rfl, hct2⟩ := one_hot_encode_singleton_inv hct
  obtain ⟨sprow, rfl, hsp2⟩ := one_hot_encode_singleton_inv hsp
  refine ⟨nrow, brow, srow, schrow, ctrow, sprow, pprow, hn, hb, hs,
    hsch2, hct2, hsp2, one_hot_encode_combined_ok_length hppr, ?_⟩
  rw [← hm]
  simp [KudosDataset.catDim1]

theorem stable_diffusion_xl_mem :
    "stable_diffusion_xl" ∈ KNOWN_MODEL_BASELINES := by decide

/-- The baseline actually looked up is always in its vocabulary: either the
record's value is known, or the fallback is used. -/
theorem baseline_pick_mem (s : String) :
    (if s ∈ KNOWN_MODEL_BASELINES then s else "stable_diffusion_xl")
      ∈ KNOWN_MODEL_BASELINES := by
  by_cases hb : s ∈ KNOWN_MODEL_BASELINES
  · simp [hb]
  · simpa [hb] using stable_diffusion_xl_mem

/-- The sampler actually looked up is in its vocabulary provided the
fallback `"k_euler"` is. -/
theorem sampler_pick_mem (V : HordeVocabs) (s : String)
    (hke : "k_euler" ∈ V.samplers) :
    (if s ∈ V.samplers then s else "k_euler") ∈ V.samplers := by
  by_cases hs : s ∈ V.samplers
  · simp [hs]
  · simpa [hs] using hke

/-- Every fallible step of `payload_to_tensor` succeeds on a well-formed
record. -/
theorem payload_to_tensor_ok_of_wf {V : HordeVocabs} {r : TrainingRecord}
    (h : wfRecord V r) :
    ∃ m, KudosDataset.payload_to_tensor V r = Except.ok m := by
  obtain ⟨h1, h2, h3, h4, h5, h6, h7, h8, h9, h10, hsched, hke, hnone,
    hct, hsp, hpp⟩ := h
  obtain ⟨nrow, hn⟩ := numericRow_ok_of_wf h1 h4 h2 h3 h5 h6 h7 h8 h9 h10
  obtain ⟨brow, hbrow⟩ :=
    oneHotRow_ok_of_mem (baseline_pick_mem r.sdk_api_job_info.model_baseline)
  obtain ⟨srow, hsrow⟩ := oneHotRow_ok_of_mem
    (sampler_pick_mem V r.sdk_api_job_info.payload.sampler_name hke)
  obtain ⟨schrow, hschrow⟩ := oneHotRow_ok_of_mem hsched
  have hctmem : (match r.sdk_api_job_info.payload.control_type with
      | none => "None"
      | some none => "None"
      | some (some s) => s) ∈ V.control_types := by
    cases hc : r.sdk_api_job_info.payload.control_type with
    | none => exact hnone
    | some o =>
      cases o with
      | none => exact hnone
      | some s =>
        rw [hc] at hct
        simpa [controlTypeOk] using hct
  obtain ⟨ctrow, hctrow⟩ := oneHotRow_ok_of_mem hctmem
  obtain ⟨sprow, hsprow⟩ := oneHotRow_ok_of_mem hsp
  have hb2 := one_hot_encode_singleton_of_ok hbrow
  have hs2 := one_hot_encode_singleton_of_ok hsrow
  have hsch2 := one_hot_encode_singleton_of_ok hschrow
  have hct2 := one_hot_encode_singleton_of_ok hctrow
  have hsp2 := one_hot_encode_singleton_of_ok hsprow
  cases hppc : r.sdk_api_job_info.payload.post_processing with
  | none =>
    have hpprow : KudosDataset.one_hot_encode_combined []
        KNOWN_POST_PROCESSORS =
        Except.ok (List.replicate KNOWN_POST_PROCESSORS.length (0 : ℚ)) :=
      rfl
    refine ⟨[nrow ++ brow ++ srow ++ schrow ++ ctrow ++ sprow ++
      List.replicate KNOWN_POST_PROCESSORS.length (0 : ℚ)], ?_⟩
    simp only [KudosDataset.payload_to_tensor, hn, ok_bind, hppc, hb2,
      hs2, hsch2, hct2, hsp2, hpprow]
    simp [KudosDataset.catDim1, pure, Except.pure]
  | some o =>
    cases o with
    | none =>
      rw [hppc] at hpp
      simp [postProcessingOk] at hpp
    | some l =>
      rw [hppc] at hpp
      simp only [postProcessingOk, List.all_eq_true, decide_eq_true_eq]
        at hpp
      obtain ⟨pprow, hpprow, _⟩ := one_hot_encode_combined_ok_of_mem hpp
      refine ⟨[nrow ++ brow ++ srow ++ schrow ++ ctrow ++ sprow ++
        pprow], ?_⟩
      simp only [KudosDataset.payload_to_tensor, hn, ok_bind, hppc, hb2,
        hs2, hsch2, hct2, hsp2, hpprow]
      simp [KudosDataset.catDim1, pure, Except.pure]

/-! ### Characterising `create_sequential_model` -/

/-- `layerPiece` with the dropout index offset by `i0`, the generalisation
needed to peel layers off the front of the size list. -/
def layerPieceAt (dropoutFor : Nat → ℚ) (i0 : Nat) (ls : List Nat)
    (i : Nat) : List Layer :=
  [Layer.linear (ls.getD i 0) (ls.getD (i + 1) 0) true] ++
  (if i < ls.length - 2 then
    [Layer.relu] ++
      (if 0 < i0 + i then [Layer.dropout (dropoutFor (i0 + i))] else [])
  else [])

theorem layerPieceAt_zero (d : Nat → ℚ) (ls : List Nat) (i : Nat) :
    layerPieceAt d 0 ls i = layerPiece d ls i := by
  unfold layerPieceAt layerPiece
  rw [Nat.zero_add]

theorem layerPieceAt_shift (d : Nat → ℚ) (i0 : Nat) (a : Nat)
    (ls : List Nat) (i : Nat) :
    layerPieceAt d i0 (a :: ls) (i + 1) = layerPieceAt d (i0 + 1) ls i := by
  unfold layerPieceAt
  simp only [List.getD_cons_succ, List.length_cons]
  rw [show i0 + (i + 1) = i0 + 1 + i from by omega]
  by_cases hcond : i < ls.length - 2
  · rw [if_pos hcond, if_pos (by omega)]
  · rw [if_neg hcond, if_neg (by omega)]

theorem build_eq_seqSpec_aux (d : Nat → ℚ) :
    ∀ (hs : List Nat) (prev out i0 : Nat),
    ((List.range (hs.length + 1)).map
      (layerPieceAt d i0 (prev :: (hs ++ [out])))).flatten =
    seqSpec d i0 prev hs out := by
  intro hs
  induction hs with
  | nil =>
    intro prev out i0
    simp [layerPieceAt, seqSpec, List.range_succ_eq_map]
  | cons h rest ih =>
    intro prev out i0
    rw [List.length_cons, List.range_succ_eq_map, List.map_cons,
      List.map_map, List.flatten_cons]
    have hshift : ∀ i,
        (layerPieceAt d i0 (prev :: (h :: rest ++ [out])) ∘ Nat.succ) i =
        layerPieceAt d (i0 + 1) (h :: (rest ++ [out])) i := by
      intro i
      show layerPieceAt d i0 (prev :: (h :: rest ++ [out])) (i + 1) = _
      exact layerPieceAt_shift d i0 prev (h :: (rest ++ [out])) i
    rw [List.map_congr_left (fun i _ => hshift i), ih h out (i0 + 1)]
    have hhead : layerPieceAt d i0 (prev :: (h :: rest ++ [out])) 0 =
        [Layer.linear prev h true, Layer.relu] ++
        (if 0 < i0 then [Layer.dropout (d i0)] else []) := by
      unfold layerPieceAt
      have hlen : 0 < (prev :: (h :: rest ++ [out])).length - 2 := by
        simp only [List.length_cons, List.length_append,
          List.length_singleton]
        omega
      rw [if_pos hlen]
      simp
    rw [hhead]
    simp [seqSpec]

/-! ### Rounding, training-loop and multi-hot helper lemmas -/

theorem pythonRound2_intCast (n : ℤ) : pythonRound2 (n : ℚ) = n := by
  have h : (100 : ℚ) * (n : ℚ) = ((100 * n : ℤ) : ℚ) := by push_cast; ring
  simp only [pythonRound2, roundHalfEven, h, Int.floor_intCast, sub_self]
  rw [if_pos (by norm_num : (0 : ℚ) < 1 / 2)]
  push_cast
  field_simp

theorem objectiveLoop_succ {σ : Type} (t : σ → σ) (v : σ → List ℚ)
    (n : Nat) (s0 : σ) :
    objectiveLoop t v (n + 1) s0 =
      (some (epochValidationScore v (t ((objectiveLoop t v n s0).2))),
       t ((objectiveLoop t v n s0).2)) := by
  unfold objectiveLoop
  rw [List.range_succ, List.foldl_append]
  rfl

theorem objectiveLoop_snd {σ : Type} (t : σ → σ) (v : σ → List ℚ)
    (n : Nat) (s0 : σ) : (objectiveLoop t v n s0).2 = t^[n] s0 := by
  induction n with
  | zero => rfl
  | succ n ih =>
    rw [objectiveLoop_succ, Function.iterate_succ_apply']
    simp [ih]

theorem zipWith_add_map {α : Type} (l : List α) (f g : α → ℚ) :
    List.zipWith (· + ·) (l.map f) (l.map g) =
      l.map (fun x => f x + g x) := by
  induction l with
  | nil => rfl
  | cons a l ih => simp [ih]

theorem foldl_add_oneHot_replicate {len i : Nat} :
    ∀ (n k : Nat),
    (List.replicate n ((List.range len).map
        (fun j => if j = i then (1 : ℚ) else 0))).foldl
      (fun acc row => List.zipWith (· + ·) acc row)
      ((List.range len).map (fun j => if j = i then (k : ℚ) else 0)) =
    (List.range len).map (fun j => if j = i then ((k : ℚ) + n) else 0) := by
  intro n
  induction n with
  | zero => intro k; simp
  | succ n ih =>
    intro k
    rw [List.replicate_succ, List.foldl_cons, zipWith_add_map]
    have hstep :
        (fun x => (if x = i then (k : ℚ) else 0) +
          (if x = i then (1 : ℚ) else 0)) =
        (fun j => if j = i then ((k + 1 : Nat) : ℚ) else 0) := by
      funext j
      by_cases hj : j = i <;> simp [hj]
    rw [hstep, ih (k + 1)]
    apply List.map_congr_left
    intro j _
    by_cases hj : j = i <;> simp [hj]
    ring

theorem mapM_oneHotRow_replicate {vocab : List String} {s : String}
    {hr : List ℚ} (hok : KudosDataset.oneHotRow vocab s = Except.ok hr) :
    ∀ n, (List.replicate n s).mapM (KudosDataset.oneHotRow vocab) =
      Except.ok (List.replicate n hr) := by
  intro n
  induction n with
  | zero => rfl
  | succ n ih =>
    rw [List.replicate_succ, List.mapM_cons, hok, ih]
    rfl

/-! ### Dataset-loading helper lemmas -/

/-- The single feature row a record encodes to (meaningful when
`payload_to_tensor` succeeds, which the lemmas below always establish
first). -/
def encodedRow (V : HordeVocabs) (r : TrainingRecord) : List ℚ :=
  ((KudosDataset.payload_to_tensor V r).toOption.getD []).headD []

/-- A record whose label is present is encodable when well-formed, and
`initAux` then returns exactly the encoded rows and labels of the records
with a non-null label, in order. -/
theorem initAux_ok (V : HordeVocabs) :
    ∀ (records : List TrainingRecord),
    (∀ r ∈ records, r.time_to_generate ≠ none) →
    (∀ r ∈ records,
      (r.time_to_generate.getD none).isSome = true → wfRecord V r) →
    KudosDataset.initAux V records = Except.ok
      (records.filterMap (fun r =>
        (r.time_to_generate.getD none).map (fun _ => encodedRow V r)),
       records.filterMap (fun r => r.time_to_generate.getD none)) := by
  intro records
  induction records with
  | nil => intro _ _; rfl
  | cons r rest ih =>
    intro hlabel hwf
    have hrest := ih (fun x hx => hlabel x (by simp [hx]))
      (fun x hx h => hwf x (by simp [hx]) h)
    cases hr : r.time_to_generate with
    | none => exact absurd hr (hlabel r (by simp))
    | some o =>
      cases o with
      | none =>
        unfold KudosDataset.initAux
        rw [hr, hrest]
        simp [hr]
      | some t =>
        have hwfr : wfRecord V r := hwf r (by simp) (by simp [hr])
        obtain ⟨m, hm⟩ := payload_to_tensor_ok_of_wf hwfr
        obtain ⟨nrow, brow, srow, schrow, ctrow, sprow, pprow,
          _, _, _, _, _, _, _, hmeq⟩ := payload_to_tensor_ok_inv hm
        subst hmeq
        have henc : encodedRow V r =
            nrow ++ brow ++ srow ++ schrow ++ ctrow ++ sprow ++ pprow := by
          simp [encodedRow, hm, Except.toOption]
        simp only [KudosDataset.initAux, hr, hm, ok_bind, hrest]
        simp [hr, henc, pure, Except.pure]

/-! ### Concrete records for witnesses and counterexamples -/

/-- `minimalRecord` with a present-but-null `clip_skip`, which Python's
`float(None)` rejects. -/
def clipSkipNullRecord : TrainingRecord :=
  { minimalRecord with
    sdk_api_job_info.payload.clip_skip := some PyVal.null }

/-- `minimalRecord` with a scheduler outside `KNOWN_SCHEDULERS`. -/
def unknownSchedulerRecord : TrainingRecord :=
  { minimalRecord with
    sdk_api_job_info.payload.scheduler := "exponential" }

/-- `minimalRecord` with both out-of-vocabulary model baseline and
sampler. -/
def oovBaselineSamplerRecord : TrainingRecord :=
  { minimalRecord with
    sdk_api_job_info.model_baseline := "pixart"
    sdk_api_job_info.payload.sampler_name := "weird_sampler" }

/-- `minimalRecord` with the label key entirely absent. -/
def noLabelRecord : TrainingRecord :=
  { minimalRecord with time_to_generate := none }

/-- A record with a null label and a payload that would not even encode
(null `clip_skip`): the loader must skip it without touching the
encoder. -/
def nullLabelRecord : TrainingRecord :=
  { minimalRecord with
    time_to_generate := some none
    sdk_api_job_info.payload.clip_skip := some PyVal.null }

/-- `minimalRecord` with one present-true and one present-false flag
(the remaining six flags stay absent). -/
def flagsRecord : TrainingRecord :=
  { minimalRecord with
    sdk_api_job_info.payload.transparent := some (PyVal.bool true)
    sdk_api_job_info.payload.tiling := some (PyVal.bool false) }

/-- `minimalRecord` with a nonzero numeric `hires_fix_denoising_strength`. -/
def hiresDenoisingRecord : TrainingRecord :=
  { minimalRecord with
    sdk_api_job_info.payload.hires_fix_denoising_strength :=
      some (PyVal.num 2) }

/-! ### Claim C1 -/

/-- C1 counterexample: the feature encoder is not total.  A record whose
optional `clip_skip` field is present but null makes `payload_to_tensor`
raise (Python `float(None)` is a TypeError), so a malformed optional field
does not degrade to its default. -/
theorem encode_clip_skip_null_raises :
    KudosDataset.payload_to_tensor exampleVocabs clipSkipNullRecord =
      Except.error "TypeError: float() argument must not be None" := by
  decide

/-- C1 (amended): encoding is total on well-formed records — whenever the
optional numeric fields are absent or numeric (`clip_skip` and the other
`float()`-converted fields not null, no field a string), the scheduler,
control type, source-processing value and listed post-processors are in
their vocabularies and `post_processing` is not null, the encoder returns a
single feature row of the fixed expected length rather than raising; in
particular a record missing all optional fields encodes successfully. -/
theorem encode_wf_total {V : HordeVocabs} {r : TrainingRecord}
    (h : wfRecord V r) :
    ∃ row, KudosDataset.payload_to_tensor V r = Except.ok [row] ∧
      row.length = 23 + (KNOWN_MODEL_BASELINES.length + V.samplers.length +
        KNOWN_SCHEDULERS.length + V.control_types.length +
        V.source_processing.length + KNOWN_POST_PROCESSORS.length) := by
  obtain ⟨m, hm⟩ := payload_to_tensor_ok_of_wf h
  obtain ⟨nrow, brow, srow, schrow, ctrow, sprow, pprow, hn, hb, hs, hsch,
    hct, hsp, hpplen, hmeq⟩ := payload_to_tensor_ok_inv hm
  subst hmeq
  refine ⟨nrow ++ brow ++ srow ++ schrow ++ ctrow ++ sprow ++ pprow,
    hm, ?_⟩
  obtain ⟨v1, v2, v3, v4, v5, v6, v7, v8, v9, v10, hnrow⟩ :=
    numericRow_ok_inv hn
  have h23 : nrow.length = 23 := by rw [hnrow]; rfl
  simp [List.length_append, h23, oneHotRow_ok_length hb,
    oneHotRow_ok_length hs, oneHotRow_ok_length hsch,
    oneHotRow_ok_length hct, oneHotRow_ok_length hsp, hpplen]
  omega

/-- C1 witness: the record with every optional field absent encodes, under
the example vocabularies, to a single row of length 42. -/
theorem encode_wf_total_witness :
    ∃ row,
      KudosDataset.payload_to_tensor exampleVocabs minimalRecord =
        Except.ok [row] ∧ row.length = 42 := by
  obtain ⟨row, hok, hlen⟩ :=
    @encode_wf_total exampleVocabs minimalRecord (by decide)
  exact ⟨row, hok, by simpa [exampleVocabs, KNOWN_MODEL_BASELINES,
    KNOWN_SCHEDULERS, KNOWN_POST_PROCESSORS] using hlen⟩

/-! ### Claim C2 -/

/-- C2 counterexample: not every single-valued categorical field has a
fallback.  A scheduler outside `KNOWN_SCHEDULERS` is passed straight to
`list.index`, which raises ValueError, so encoding such a record errors
instead of collapsing to a fallback category. -/
theorem encode_unknown_scheduler_raises :
    KudosDataset.payload_to_tensor exampleVocabs unknownSchedulerRecord =
      Except.error "ValueError: x not in list" := by decide

/-- C2 (amended): only the model baseline and the sampler have
out-of-vocabulary fallbacks (`"stable_diffusion_xl"` and `"k_euler"`), and
encoding a well-formed record with unknown baseline and sampler succeeds
with the fallback category's one-hot position set; an out-of-vocabulary
scheduler, control-type string or source-processing value instead raises
ValueError (the control type falls back to `"None"` only when absent or
null). -/
theorem categorical_fallback_amended {V : HordeVocabs}
    {r : TrainingRecord} (h : wfRecord V r)
    (hb : r.sdk_api_job_info.model_baseline ∉ KNOWN_MODEL_BASELINES)
    (hs : r.sdk_api_job_info.payload.sampler_name ∉ V.samplers) :
    ∃ row srow,
      KudosDataset.payload_to_tensor V r = Except.ok [row] ∧
      (row.drop 23).take 5 = [0, 0, 0, 0, 1] ∧
      KudosDataset.oneHotRow V.samplers "k_euler" = Except.ok srow ∧
      (row.drop 28).take V.samplers.length = srow := by
  obtain ⟨m, hm⟩ := payload_to_tensor_ok_of_wf h
  obtain ⟨nrow, brow, srow, schrow, ctrow, sprow, pprow, hn, hbrow, hsrow,
    hsch, hct, hsp, hpplen, hmeq⟩ := payload_to_tensor_ok_inv hm
  subst hmeq
  rw [if_neg hb] at hbrow
  rw [if_neg hs] at hsrow
  have hbval : brow = [0, 0, 0, 0, 1] := by
    have : KudosDataset.oneHotRow KNOWN_MODEL_BASELINES
        "stable_diffusion_xl" = Except.ok [0, 0, 0, 0, 1] := by
      simp [KudosDataset.oneHotRow, KNOWN_MODEL_BASELINES,
        List.findIdx?_cons, List.range_succ]
    rw [this] at hbrow
    exact (Except.ok.injEq _ _).mp hbrow.symm
  obtain ⟨v1, v2, v3, v4, v5, v6, v7, v8, v9, v10, hnrow⟩ :=
    numericRow_ok_inv hn
  have h23 : nrow.length = 23 := by rw [hnrow]; rfl
  refine ⟨nrow ++ brow ++ srow ++ schrow ++ ctrow ++ sprow ++ pprow, srow,
    hm, ?_, hsrow, ?_⟩
  · simp only [List.append_assoc]
    rw [← h23, List.drop_left, hbval]
    simp
  · simp only [List.append_assoc]
    rw [show (28 : ℕ) = 23 + 5 from rfl, ← List.drop_drop, ← h23,
      List.drop_left, hbval]
    rw [show (5 : ℕ) = ([0, 0, 0, 0, 1] : List ℚ).length from rfl,
      List.drop_left]
    rw [← oneHotRow_ok_length hsrow, List.take_left]

/-- C2 witness: under the example vocabularies, a record with unknown model
baseline and sampler encodes successfully, with the baseline block one-hot
at the `"stable_diffusion_xl"` position and the sampler block one-hot at
the `"k_euler"` position. -/
theorem categorical_fallback_witness :
    ∃ row srow,
      KudosDataset.payload_to_tensor exampleVocabs
        oovBaselineSamplerRecord = Except.ok [row] ∧
      (row.drop 23).take 5 = [0, 0, 0, 0, 1] ∧
      KudosDataset.oneHotRow exampleVocabs.samplers "k_euler" =
        Except.ok srow ∧
      (row.drop 28).take exampleVocabs.samplers.length = srow :=
  categorical_fallback_amended (by decide) (by decide) (by decide)

/-! ### Claim C3 -/

/-- C3 counterexample: a record whose `time_to_generate` key is entirely
absent is not silently skipped — `payload["time_to_generate"]` raises
KeyError, so loading a file containing such a record fails instead of
storing the remaining records. -/
theorem init_missing_label_raises :
    KudosDataset.init exampleVocabs [noLabelRecord, minimalRecord] =
      Except.error "KeyError: time_to_generate" := by decide

/-- C3 (amended): during dataset loading a record whose label is present
but null is silently skipped — no error, no stored pair, and its payload is
never encoded — while every record with a numeric label is encoded and
stored in order with its label; but a record whose label key is absent
raises KeyError, and the final `torch.stack` fails when no record at all is
stored, so the hypotheses require every label key present and at least one
non-null label. -/
theorem init_skips_null_labels {V : HordeVocabs}
    {records : List TrainingRecord}
    (hlabel : ∀ r ∈ records, r.time_to_generate ≠ none)
    (hwf : ∀ r ∈ records,
      (r.time_to_generate.getD none).isSome = true → wfRecord V r)
    (hsome : ∃ r ∈ records,
      (r.time_to_generate.getD none).isSome = true) :
    KudosDataset.init V records = Except.ok
      { data := records.filterMap (fun r =>
          (r.time_to_generate.getD none).map (fun _ => encodedRow V r))
        labels :=
          records.filterMap (fun r => r.time_to_generate.getD none) } := by
  unfold KudosDataset.init
  rw [initAux_ok V records hlabel hwf, ok_bind]
  dsimp only
  obtain ⟨r, hr, hsome⟩ := hsome
  obtain ⟨t, ht⟩ := Option.isSome_iff_exists.mp hsome
  have hmem : encodedRow V r ∈ records.filterMap (fun r =>
      (r.time_to_generate.getD none).map (fun _ => encodedRow V r)) := by
    exact List.mem_filterMap.mpr ⟨r, hr, by rw [ht]; rfl⟩
  rw [if_neg (by
    simp only [List.isEmpty_iff]
    exact List.ne_nil_of_mem hmem)]

/-- C3 witness: a null-labelled record whose payload would not even encode
(null `clip_skip`) is skipped without error, while the labelled record
after it is encoded and stored with its label. -/
theorem init_skips_null_labels_witness :
    KudosDataset.init exampleVocabs [nullLabelRecord, minimalRecord] =
      Except.ok
        { data := [encodedRow exampleVocabs minimalRecord]
          labels := [3] } := by
  have h := @init_skips_null_labels exampleVocabs
    [nullLabelRecord, minimalRecord] (by decide) (by decide) (by decide)
  simpa [nullLabelRecord, minimalRecord] using h

/-! ### Claim C4 -/

/-- C4: in any successfully encoded record, the numeric-block positions
14-21 hold the eight boolean flags (`hires_fix`,
`hires_fix_denoising_strength`, `image_is_control`, `return_control_map`,
`transparent`, `source_image`, `source_mask`, `tiling`) encoded by
`flagValue`, whose default is true: an absent flag encodes as 1.0, and a
present boolean flag casts to 1.0 or 0.0. -/
theorem flags_default_true {V : HordeVocabs} {r : TrainingRecord}
    {m : List (List ℚ)}
    (h : KudosDataset.payload_to_tensor V r = Except.ok m) :
    ((m.headD []).getD 14 0 =
        flagValue r.sdk_api_job_info.payload.hires_fix ∧
      (m.headD []).getD 15 0 =
        flagValue r.sdk_api_job_info.payload.hires_fix_denoising_strength ∧
      (m.headD []).getD 16 0 =
        flagValue r.sdk_api_job_info.payload.image_is_control ∧
      (m.headD []).getD 17 0 =
        flagValue r.sdk_api_job_info.payload.return_control_map ∧
      (m.headD []).getD 18 0 =
        flagValue r.sdk_api_job_info.payload.transparent ∧
      (m.headD []).getD 19 0 =
        flagValue r.sdk_api_job_info.payload.source_image ∧
      (m.headD []).getD 20 0 =
        flagValue r.sdk_api_job_info.payload.source_mask ∧
      (m.headD []).getD 21 0 =
        flagValue r.sdk_api_job_info.payload.tiling) ∧
    flagValue none = 1 ∧
    flagValue (some (PyVal.bool true)) = 1 ∧
    flagValue (some (PyVal.bool false)) = 0 := by
  obtain ⟨nrow, brow, srow, schrow, ctrow, sprow, pprow, hn, _, _, _, _, _,
    _, hmeq⟩ := payload_to_tensor_ok_inv h
  subst hmeq
  obtain ⟨v1, v2, v3, v4, v5, v6, v7, v8, v9, v10, hnrow⟩ :=
    numericRow_ok_inv hn
  subst hnrow
  refine ⟨?_, rfl, rfl, rfl⟩
  simp [List.getD_cons_succ, List.getD_cons_zero]

/-- C4 witness: in the concrete `flagsRecord` the six absent flags encode
as 1.0, the present-true flag as 1.0 and the present-false flag as 0.0. -/
theorem flags_default_true_witness :
    ∃ m, KudosDataset.payload_to_tensor exampleVocabs flagsRecord =
        Except.ok m ∧
      (m.headD []).getD 14 0 = 1 ∧
      (m.headD []).getD 18 0 = 1 ∧
      (m.headD []).getD 21 0 = 0 := by
  obtain ⟨mm, hm⟩ := @payload_to_tensor_ok_of_wf exampleVocabs
    flagsRecord (by decide)
  have hflags := flags_default_true hm
  refine ⟨mm, hm, ?_, ?_, ?_⟩
  · rw [hflags.1.1]; rfl
  · rw [hflags.1.2.2.2.2.1]; rfl
  · rw [hflags.1.2.2.2.2.2.2.2]; rfl

/-! ### Claim C10 -/

/-- C10: `hires_fix_denoising_strength` is encoded by Python truthiness at
numeric-block position 15, discarding its magnitude: absent encodes as 1.0
(the `get` default `True` is truthy), present null or 0.0 encodes as 0.0,
and any nonzero numeric value encodes as 1.0. -/
theorem hires_fix_denoising_truthiness {V : HordeVocabs}
    {r : TrainingRecord} {m : List (List ℚ)}
    (h : KudosDataset.payload_to_tensor V r = Except.ok m) :
    (m.headD []).getD 15 0 =
      flagValue r.sdk_api_job_info.payload.hires_fix_denoising_strength ∧
    flagValue none = 1 ∧
    flagValue (some PyVal.null) = 0 ∧
    flagValue (some (PyVal.num 0)) = 0 ∧
    (∀ x : ℚ, x ≠ 0 → flagValue (some (PyVal.num x)) = 1) := by
  obtain ⟨nrow, brow, srow, schrow, ctrow, sprow, pprow, hn, _, _, _, _, _,
    _, hmeq⟩ := payload_to_tensor_ok_inv h
  subst hmeq
  obtain ⟨v1, v2, v3, v4, v5, v6, v7, v8, v9, v10, hnrow⟩ :=
    numericRow_ok_inv hn
  subst hnrow
  refine ⟨?_, rfl, rfl, ?_, ?_⟩
  · simp [List.getD_cons_succ, List.getD_cons_zero]
  · simp [flagValue, PyVal.truthy]
  · intro x hx
    simp [flagValue, PyVal.truthy, hx]

/-- C10 witness: a record carrying `hires_fix_denoising_strength = 2.0`
encodes 1.0 at position 15, not the value 2.0. -/
theorem hires_fix_denoising_truthiness_witness :
    ∃ m, KudosDataset.payload_to_tensor exampleVocabs
        hiresDenoisingRecord = Except.ok m ∧
      (m.headD []).getD 15 0 = 1 := by
  obtain ⟨mm, hm⟩ := @payload_to_tensor_ok_of_wf exampleVocabs
    hiresDenoisingRecord (by decide)
  have hfact := hires_fix_denoising_truthiness hm
  refine ⟨mm, hm, ?_⟩
  rw [hfact.1]
  exact hfact.2.2.2.2 2 (by norm_num)

/-! ### Claim C5 -/

/-- C5: the post-processor block is the element-wise sum of one one-hot row
per list entry, so repeated entries accumulate as counts: the concrete list
`["GFPGAN", "GFPGAN"]` encodes to 2.0 at the GFPGAN position (index 6) and
0.0 elsewhere, and in general a list repeating an in-vocabulary entry `n`
times encodes to the value `n` at its position, not a capped indicator. -/
theorem post_processing_multi_hot_counts :
    KudosDataset.one_hot_encode_combined ["GFPGAN", "GFPGAN"]
      KNOWN_POST_PROCESSORS = Except.ok [0, 0, 0, 0, 0, 0, 2, 0] ∧
    ∀ (vocab : List String) (s : String) (i n : Nat),
      vocab.findIdx? (fun u => u == s) = some i →
      KudosDataset.one_hot_encode_combined (List.replicate n s) vocab =
        Except.ok ((List.range vocab.length).map
          (fun j => if j = i then (n : ℚ) else 0)) := by
  have hgen : ∀ (vocab : List String) (s : String) (i n : Nat),
      vocab.findIdx? (fun u => u == s) = some i →
      KudosDataset.one_hot_encode_combined (List.replicate n s) vocab =
        Except.ok ((List.range vocab.length).map
          (fun j => if j = i then (n : ℚ) else 0)) := by
    intro vocab s i n hfi
    have hrow : KudosDataset.oneHotRow vocab s = Except.ok
        ((List.range vocab.length).map
          (fun j => if j = i then (1 : ℚ) else 0)) := by
      unfold KudosDataset.oneHotRow
      rw [hfi]
    unfold KudosDataset.one_hot_encode_combined
    rw [mapM_oneHotRow_replicate hrow n, ok_bind]
    have hbase : List.replicate vocab.length (0 : ℚ) =
        (List.range vocab.length).map
          (fun j => if j = i then ((0 : Nat) : ℚ) else 0) := by
      simp
    rw [hbase, foldl_add_oneHot_replicate n 0]
    simp [pure, Except.pure]
  refine ⟨?_, hgen⟩
  have h2 := hgen KNOWN_POST_PROCESSORS "GFPGAN" 6 2 (by decide)
  rw [show List.replicate 2 "GFPGAN" = ["GFPGAN", "GFPGAN"] from rfl] at h2
  rw [h2]
  norm_num [KNOWN_POST_PROCESSORS, List.range_succ]

/-- C5 witness: three repetitions of GFPGAN accumulate to the value 3 at
index 6. -/
theorem post_processing_multi_hot_counts_witness :
    KudosDataset.one_hot_encode_combined (List.replicate 3 "GFPGAN")
      KNOWN_POST_PROCESSORS =
      Except.ok ((List.range KNOWN_POST_PROCESSORS.length).map
        (fun j => if j = 6 then (3 : ℚ) else 0)) := by
  have h := post_processing_multi_hot_counts.2 KNOWN_POST_PROCESSORS
    "GFPGAN" 6 3 (by decide)
  simpa using h

/-! ### Claim C6 -/

/-- C6 counterexample: the final linear layer carries torch's default bias
(`nn.Linear` is constructed without `bias=False` anywhere), so the built
model's last layer is not an unbiased linear transform as the claim
states. -/
theorem create_final_layer_bias_cex :
    create_sequential_model (fun _ => 0) [] 5 1 =
      [Layer.linear 5 1 true] ∧
    Layer.linear 5 1 false ∉ create_sequential_model (fun _ => 0) [] 5 1
    := by decide

/-- C6 (amended): `create_sequential_model` builds exactly the layout of
`seqSpec`: one default-bias linear layer per consecutive width pair, a ReLU
after every hidden layer but not after the output layer, a dropout layer
only after hidden layers beyond the first, and a final default-bias linear
layer with no activation; an empty hidden-width list yields exactly one
linear transform from input width to output width without error. -/
theorem create_sequential_model_layout (d : Nat → ℚ) (hs : List Nat)
    (inp out : Nat) :
    create_sequential_model d hs inp out = seqSpec d 0 inp hs out ∧
    create_sequential_model d [] inp out = [Layer.linear inp out true] := by
  constructor
  · simp only [create_sequential_model]
    rw [show (inp :: (hs ++ [out])).length - 1 = hs.length + 1 from
      by simp]
    rw [List.map_congr_left (fun i _ =>
      (layerPieceAt_zero d (inp :: (hs ++ [out])) i).symm)]
    exact build_eq_seqSpec_aux d hs inp out 0
  · simp [create_sequential_model, layerPiece, List.range_succ]

/-! ### Claim C7 -/

/-- C7: the value returned by the trial objective's epoch loop is the last
epoch's mean validation loss: `total_loss` is reset and recomputed every
epoch, overwriting the previous epoch's value, so after `n ≥ 1` epochs the
returned score is the validation score of the final trained state
`trainEpoch^[n] s0` — not the minimum over the epochs. -/
theorem objective_returns_last_epoch_loss {σ : Type} (t : σ → σ)
    (v : σ → List ℚ) (n : Nat) (s0 : σ) (h : 1 ≤ n) :
    (objectiveLoop t v n s0).1 =
      some (epochValidationScore v (t^[n] s0)) := by
  cases n with
  | zero => cases h
  | succ n =>
    rw [objectiveLoop_succ, objectiveLoop_snd,
      Function.iterate_succ_apply']

/-- C7 witness: with state ℕ, one training epoch = `Nat.succ` and the
validation losses of state `s` being `[s]`, two epochs return the second
epoch's score — the rounded mean 2 — although the first epoch's score 1 was
smaller. -/
theorem objective_returns_last_epoch_loss_witness :
    (objectiveLoop Nat.succ (fun s => [(s : ℚ)]) 2 0).1 =
      some (epochValidationScore (fun s => [(s : ℚ)]) (Nat.succ^[2] 0)) ∧
    (objectiveLoop Nat.succ (fun s => [(s : ℚ)]) 2 0).1 = some 2 := by
  have h := objective_returns_last_epoch_loss Nat.succ
    (fun s => [(s : ℚ)]) 2 0 (by decide)
  refine ⟨h, ?_⟩
  rw [h]
  have h2 : epochValidationScore (fun s : Nat => [(s : ℚ)])
      (Nat.succ^[2] 0) = 2 := by
    show epochValidationScore (fun s : Nat => [(s : ℚ)]) 2 = 2
    unfold epochValidationScore
    norm_num
    simpa using pythonRound2_intCast 2
  rw [h2]

/-! ### Claim C8 -/

/-- C8: every record the encoder successfully encodes yields a single row
whose length is the numeric-field count (23) plus the sum of the six
categorical vocabulary sizes, and this same constant is the value
`objective` computes as the network input width from `PAYLOAD_EXAMPLE`
(src line 388). -/
theorem feature_vector_length_invariant (V : HordeVocabs)
    (hs : "k_euler" ∈ V.samplers) (hc : "None" ∈ V.control_types)
    (hp : "img2img" ∈ V.source_processing) :
    (∀ (r : TrainingRecord) (m : List (List ℚ)),
      KudosDataset.payload_to_tensor V r = Except.ok m →
      ∃ row, m = [row] ∧ row.length = 23 +
        (KNOWN_MODEL_BASELINES.length + V.samplers.length +
         KNOWN_SCHEDULERS.length + V.control_types.length +
         V.source_processing.length + KNOWN_POST_PROCESSORS.length)) ∧
    objective_input_size V = Except.ok (23 +
      (KNOWN_MODEL_BASELINES.length + V.samplers.length +
       KNOWN_SCHEDULERS.length + V.control_types.length +
       V.source_processing.length + KNOWN_POST_PROCESSORS.length)) := by
  have hlen : ∀ (r : TrainingRecord) (m : List (List ℚ)),
      KudosDataset.payload_to_tensor V r = Except.ok m →
      ∃ row, m = [row] ∧ row.length = 23 +
        (KNOWN_MODEL_BASELINES.length + V.samplers.length +
         KNOWN_SCHEDULERS.length + V.control_types.length +
         V.source_processing.length + KNOWN_POST_PROCESSORS.length) := by
    intro r m hok
    obtain ⟨nrow, brow, srow, schrow, ctrow, sprow, pprow, hn, hb, hsr,
      hsch, hct, hsps, hpplen, hmeq⟩ := payload_to_tensor_ok_inv hok
    subst hmeq
    refine ⟨nrow ++ brow ++ srow ++ schrow ++ ctrow ++ sprow ++ pprow,
      rfl, ?_⟩
    obtain ⟨v1, v2, v3, v4, v5, v6, v7, v8, v9, v10, hnrow⟩ :=
      numericRow_ok_inv hn
    have h23 : nrow.length = 23 := by rw [hnrow]; rfl
    simp [List.length_append, h23, oneHotRow_ok_length hb,
      oneHotRow_ok_length hsr, oneHotRow_ok_length hsch,
      oneHotRow_ok_length hct, oneHotRow_ok_length hsps, hpplen]
    omega
  refine ⟨hlen, ?_⟩
  have hwf : wfRecord V PAYLOAD_EXAMPLE :=
    ⟨rfl, rfl, rfl, rfl, rfl, rfl, rfl, rfl, rfl, rfl, by decide, hs, hc,
      rfl, hp, rfl⟩
  obtain ⟨m, hm⟩ := payload_to_tensor_ok_of_wf hwf
  obtain ⟨row, hrow, hlength⟩ := hlen PAYLOAD_EXAMPLE m hm
  subst hrow
  unfold objective_input_size
  rw [hm, ok_bind]
  simp [hlength, pure, Except.pure]

/-- C8 witness: under the example vocabularies the network input width
computed by the objective is 23 + 19 = 42. -/
theorem feature_vector_length_invariant_witness :
    objective_input_size exampleVocabs = Except.ok 42 := by
  have h := (feature_vector_length_invariant exampleVocabs (by decide)
    (by decide) (by decide)).2
  simpa [exampleVocabs, KNOWN_MODEL_BASELINES, KNOWN_SCHEDULERS,
    KNOWN_POST_PROCESSORS] using h

/-! ### Claim C9 -/

/-- C9: the inference helper returns the network's raw scalar output on the
encoded feature vector, rounded to two decimal places, with no clamping —
in particular a model that outputs the negative value -5 yields -5
exactly. -/
theorem payload_to_time_rounds_raw_output {V : HordeVocabs}
    {r : TrainingRecord} {m : List (List ℚ)} (model : List ℚ → ℚ)
    (h : KudosDataset.payload_to_tensor V r = Except.ok m) :
    payload_to_time V model r =
      Except.ok (pythonRound2 (model m.flatten)) ∧
    payload_to_time V (fun _ => -5) r = Except.ok (-5) := by
  have hneg : pythonRound2 (-5 : ℚ) = -5 := by
    simpa using pythonRound2_intCast (-5)
  constructor
  · unfold payload_to_time
    rw [h, ok_bind]
    rfl
  · unfold payload_to_time
    rw [h, ok_bind]
    simp [pure, Except.pure, hneg]

/-- C9 witness: on the concrete minimal record, a constant-output model
returning -5 produces the unclamped prediction -5. -/
theorem payload_to_time_rounds_raw_output_witness :
    payload_to_time exampleVocabs (fun _ => -5) minimalRecord =
      Except.ok (-5) := by
  obtain ⟨m, hm⟩ := @payload_to_tensor_ok_of_wf exampleVocabs
    minimalRecord (by decide)
  exact (payload_to_time_rounds_raw_output (fun _ => -5) hm).2
